import Mathlib

/-!
Verification development for the Vocode-Backend real-time audio streaming
clients.  The repository contains two near-duplicate client variants:

  * `src/apps/client_backend/clients/websocket_client_with_audio.py`
    (the buffered variant: queue capacity 50, drop-oldest on overflow,
    multi-chunk playback callback), and
  * `src/apps/client_backend/websocket_client_with_audio.py`
    (the simple variant: queue capacity 10, drop-new on overflow,
    single-chunk playback callback),

plus `src/apps/client_backend/websocket_client_example.py` (no audio I/O).

The definitions below are shallow embeddings of those files: machine data
is modelled with Nat (bytes, each < 256) and Int (int16 samples); python
dicts that travel over the websocket are modelled by the `Msg` structure;
the thread-safe queues are modelled by lists with the head as the oldest
element (python `queue.Queue`: `put_nowait` appends at the tail,
`get_nowait` removes the head).
-/

/-! ### Audio configuration constants (both audio variants, lines 35-46) -/

def SERVER_SAMPLING_RATE : Nat := 16000

def OUTPUT_SAMPLING_RATE : Nat := 44100

def CHUNK_SIZE : Nat := 4096

/-- Queue capacity in the buffered variant (INPUT_QUEUE_SIZE = OUTPUT_QUEUE_SIZE = 50). -/
def BUFFERED_QUEUE_SIZE : Nat := 50

/-- Queue capacity in the simple variant (`thread_queue.Queue(maxsize=10)`). -/
def SIMPLE_QUEUE_SIZE : Nat := 10

/-! ### Protocol message type tags (class WebSocketMessageType in all three files) -/

def msgTypeAudio : String := "websocket_audio"

def msgTypeTranscript : String := "websocket_transcript"

def msgTypeReady : String := "websocket_ready"

def msgTypeStop : String := "websocket_stop"

def msgTypeConfigStart : String := "websocket_audio_config_start"

/-! ### Bounded queue operations

python `queue.Queue` with `maxsize = N`, used once per direction.  The list
head is the oldest element.  `put_nowait` on a full queue raises `Full`. -/

/-- Push of the buffered variant (`audio_callback`, clients file lines 111-120,
and `receive_messages`, lines 225-233): `put_nowait`; on `Full`, one
`get_nowait` (evicting the oldest element, the head) and then `put_nowait`. -/
def pushDropOldest (N : Nat) (q : List α) (x : α) : List α :=
  if q.length < N then q ++ [x] else q.drop 1 ++ [x]

/-- Push of the simple variant (`audio_callback`, root file lines 105-109, and
`receive_messages`, lines 190-194): `put_nowait`; on `Full`, `pass` — the new
chunk is skipped and the queue is left unchanged. -/
def pushDropNew (N : Nat) (q : List α) (x : α) : List α :=
  if q.length < N then q ++ [x] else q

/-- A queue operation: a producer push or a consumer `get_nowait`
(which removes the oldest element; on an empty queue it is a no-op here,
modelling the `except Empty: pass` paths). -/
inductive QOp (α : Type) where
  | push (x : α)
  | pop
deriving DecidableEq

/-- One step of the buffered variant's queue under a push or pop. -/
def applyOp (N : Nat) (q : List α) : QOp α → List α
  | .push x => pushDropOldest N q x
  | .pop => q.drop 1

/-- Run a sequence of queue operations from an initial queue state. -/
def runOps (N : Nat) (q : List α) (ops : List (QOp α)) : List α :=
  ops.foldl (applyOp N) q

/-- The values pushed by a sequence of operations, in push order. -/
def pushedValues : List (QOp α) → List α
  | [] => []
  | .push x :: ops => x :: pushedValues ops
  | .pop :: ops => pushedValues ops

/-! ### Base64 (python `base64.b64encode` / `b64decode`, standard alphabet)

The source wraps every outgoing capture chunk as
`base64.b64encode(audio_bytes).decode("utf-8")` and unwraps inbound audio
with `base64.b64decode(data.get("data", ""))`.  Bytes are Nat values < 256;
the encoded text is a list of characters. -/

def b64Alphabet : List Char :=
  ['A', 'B', 'C', 'D', 'E', 'F', 'G', 'H', 'I', 'J', 'K', 'L', 'M',
   'N', 'O', 'P', 'Q', 'R', 'S', 'T', 'U', 'V', 'W', 'X', 'Y', 'Z',
   'a', 'b', 'c', 'd', 'e', 'f', 'g', 'h', 'i', 'j', 'k', 'l', 'm',
   'n', 'o', 'p', 'q', 'r', 's', 't', 'u', 'v', 'w', 'x', 'y', 'z',
   '0', '1', '2', '3', '4', '5', '6', '7', '8', '9', '+', '/']

def encodeChar (n : Nat) : Char := b64Alphabet.getD n '='

def decodeChar (c : Char) : Nat := b64Alphabet.indexOf c

/-- Standard base64 encoding of a byte sequence, including padding. -/
def b64EncodeBytes : List Nat → List Char
  | a :: b :: c :: rest =>
      encodeChar (a / 4) :: encodeChar (a % 4 * 16 + b / 16) ::
      encodeChar (b % 16 * 4 + c / 64) :: encodeChar (c % 64) ::
      b64EncodeBytes rest
  | [a, b] =>
      [encodeChar (a / 4), encodeChar (a % 4 * 16 + b / 16),
       encodeChar (b % 16 * 4), '=']
  | [a] =>
      [encodeChar (a / 4), encodeChar (a % 4 * 16), '=', '=']
  | [] => []

/-- Standard base64 decoding back to bytes; a 4-character group ending in
padding yields one or two bytes. -/
def b64DecodeChars : List Char → List Nat
  | c1 :: c2 :: c3 :: c4 :: rest =>
      if c3 = '=' then
        [decodeChar c1 * 4 + decodeChar c2 / 16]
      else if c4 = '=' then
        [decodeChar c1 * 4 + decodeChar c2 / 16,
         decodeChar c2 % 16 * 16 + decodeChar c3 / 4]
      else
        (decodeChar c1 * 4 + decodeChar c2 / 16) ::
        (decodeChar c2 % 16 * 16 + decodeChar c3 / 4) ::
        (decodeChar c3 % 4 * 64 + decodeChar c4) ::
        b64DecodeChars rest
  | _ => []

/-! ### PCM16 byte decoding (`np.frombuffer(audio_bytes, dtype=np.int16)`)

Little-endian signed 16-bit pairs.  numpy requires an even byte count; the
model simply ignores a trailing odd byte, and the theorems that depend on
this decoding are stated for well-formed (even-length) chunks. -/

def bytesToInt16 : List Nat → List Int
  | b0 :: b1 :: rest =>
      (if b0 + 256 * b1 < 32768 then ((b0 + 256 * b1 : Nat) : Int)
       else ((b0 + 256 * b1 : Nat) : Int) - 65536) :: bytesToInt16 rest
  | _ => []

/-! ### Resampling (playback path) -/

/-- Model of the external `scipy.signal.resample(x, num)` call: it returns
exactly `num` samples derived from `x`.  Only the length contract and the
provenance of the values matter to the claims; the band-limited
interpolation itself is external library code and is modelled here by
index mapping. -/
def resample (xs : List Int) (num : Nat) : List Int :=
  (List.range num).map (fun i => xs.getD (i * xs.length / num) 0)

/-- The resampling step of both output callbacks (clients file lines 146-151,
root file lines 122-127): when the rates differ, compute
`num_samples_out = int(len(samples) * rateOut / rateIn)` (python `int()`
truncates, i.e. Nat division here) and resample to that many samples;
when the rates are equal, pass the samples through unchanged. -/
def resampleStage (xs : List Int) (rateIn rateOut : Nat) : List Int :=
  if rateIn ≠ rateOut then resample xs (xs.length * rateOut / rateIn) else xs

/-- The rounding the spec's numeric contract asks for, written from the
spec's words ("output length = round(inputLength × rateOut / rateIn)"):
round-half-up of the rational p / q. -/
def roundNearest (p q : Nat) : Nat := (2 * p + q) / (2 * q)

/-! ### Playback callbacks -/

/-- The chunk-collection loop of the buffered variant's `output_callback`
(clients file lines 128-140): pop whole chunks from the output queue while
the accumulated decoded sample count is below `frames` and the queue is
nonempty.  Returns the popped chunks (in pop order) and the remaining
queue.  `total` is the sample count accumulated so far. -/
def collectChunks (frames : Nat) : Nat → List (List Nat) → List (List Nat) × List (List Nat)
  | _, [] => ([], [])
  | total, c :: rest =>
      if total < frames then
        let pr := collectChunks frames (total + (bytesToInt16 c).length) rest
        (c :: pr.1, pr.2)
      else ([], c :: rest)

/-- Decoded sample count of a list of byte chunks. -/
def sampleCount (cs : List (List Nat)) : Nat :=
  (cs.map (fun c => (bytesToInt16 c).length)).sum

/-- Buffered variant's `output_callback` (clients file lines 123-162):
collect chunks, decode and concatenate them, resample, then write the
first `min(len(audio_array), frames)` samples and zero-fill the rest;
with no chunks available, write all zeros.  Returns the written buffer
and the remaining queue. -/
def outputCallbackBuffered (rateIn rateOut : Nat) (q : List (List Nat)) (frames : Nat) :
    List Int × List (List Nat) :=
  let pr := collectChunks frames 0 q
  if pr.1.isEmpty then (List.replicate frames 0, pr.2)
  else
    let arr := resampleStage ((pr.1.map bytesToInt16).flatten) rateIn rateOut
    let n := min arr.length frames
    (arr.take n ++ List.replicate (frames - n) 0, pr.2)

/-- Simple variant's `output_callback` (root file lines 112-134): pop one
chunk, decode and resample it, write it with `outdata[:len(audio_array)]`
and zero-fill any remainder; on an empty queue write all zeros.  When the
resampled chunk is longer than the buffer, the numpy slice assignment
raises a broadcast ValueError (the except clause catches only `Empty`),
leaving the buffer unwritten: modelled as `none`. -/
def outputCallbackSimple (rateIn rateOut : Nat) (q : List (List Nat)) (frames : Nat) :
    Option (List Int) :=
  match q with
  | [] => some (List.replicate frames 0)
  | chunk :: _ =>
      let arr := resampleStage (bytesToInt16 chunk) rateIn rateOut
      if arr.length ≤ frames then
        some (arr ++ List.replicate (frames - arr.length) 0)
      else none

/-! ### Protocol messages and session control flow -/

/-- A parsed websocket message: python dict with the fields the clients
read.  A missing "type" field (`data.get("type")` returning None) is
modelled by a tag string that equals none of the known tags. -/
structure Msg where
  mtype : String
  mdata : List Char
  sender : String
  text : String
deriving DecidableEq

/-- The one-time configuration message (both audio variants, lines 64-78
resp. 71-84): type `websocket_audio_config_start` plus the audio configs. -/
def configStartMsg : Msg :=
  { mtype := msgTypeConfigStart, mdata := [], sender := "", text := "" }

/-- An outgoing audio envelope (`send_audio`): type `websocket_audio`,
data = base64 of the chunk's bytes. -/
def audioMsg (chunk : List Nat) : Msg :=
  { mtype := msgTypeAudio, mdata := b64EncodeBytes chunk, sender := "", text := "" }

/-- The final stop message (`{"type": WebSocketMessageType.STOP}`). -/
def stopMsg : Msg :=
  { mtype := msgTypeStop, mdata := [], sender := "", text := "" }

/-- Result of the handshake wait (both audio variants: after sending the
config, `recv` one message; if its type is not `websocket_ready`, print the
unexpected response and return). -/
inductive SessionResult where
  | streaming
  | closedProtocolError
deriving DecidableEq

/-- Handshake dispatch on the first inbound message (clients file lines
90-96, root file lines 84-90). -/
def handshake (first : Msg) : SessionResult :=
  if first.mtype = msgTypeReady then .streaming else .closedProtocolError

/-- The send loop (`send_audio`, clients file lines 193-212, root file lines
159-178): each chunk popped from the capture queue, in FIFO order, is
wrapped in exactly one audio envelope and written to the channel. -/
def send_audio (chunks : List (List Nat)) : List Msg :=
  chunks.map audioMsg

/-- The complete sequence of messages the client writes to the channel, in
order, as a function of the first inbound message, the chunks the send loop
popped before shutdown, and the chunks still buffered in the capture queue
at shutdown (which are never sent: the finally block of lines 249-266 only
clears the streaming flag, stops the streams and writes one stop message).
On a failed handshake the function returns before the streaming block, so
only the config message is ever written. -/
def clientWrites (first : Msg) (popped leftover : List (List Nat)) : List Msg :=
  match handshake first with
  | .streaming => configStartMsg :: (send_audio popped ++ [stopMsg])
  | .closedProtocolError => [configStartMsg]

/-- Effect of one iteration of the buffered variant's receive loop
(`receive_messages`, clients file lines 214-246) on the playback queue:
audio → base64-decode and `put_nowait` with drop-oldest on overflow;
transcript → printed to the transcript sink, queue untouched; ready
(duplicate) → only logged; any other type → no branch matches, ignored.
No branch raises. -/
structure RecvEffect where
  queue : List (List Nat)
  transcriptOut : Option (String × String)
deriving DecidableEq

def receive_step (q : List (List Nat)) (m : Msg) : RecvEffect :=
  if m.mtype = msgTypeAudio then
    { queue := pushDropOldest BUFFERED_QUEUE_SIZE q (b64DecodeChars m.mdata),
      transcriptOut := none }
  else if m.mtype = msgTypeTranscript then
    { queue := q, transcriptOut := some (m.sender, m.text) }
  else
    { queue := q, transcriptOut := none }

/-- The receive loop folded over a list of inbound messages, tracking the
playback queue. -/
def receive_loop (q : List (List Nat)) (ms : List Msg) : List (List Nat) :=
  ms.foldl (fun q m => (receive_step q m).queue) q

/-! ### CLI entry points (`__main__` blocks) -/

/-- Outcome of a client invocation before any network traffic:
whether the usage message was printed, the exit code if the process exited
before connecting (`sys.exit(1)`), and the URL passed to `connect` if it
proceeded. -/
structure CliOutcome where
  usagePrinted : Bool
  exitCode : Option Nat
  connectsTo : Option String
deriving DecidableEq

/-- `__main__` of both audio variants (clients file lines 281-303, root file
lines 242-264): first query the audio devices, exiting with status 1 on
failure; then require one positional argument, printing the usage message
and exiting with status 1 when it is missing; otherwise connect to the
given URL.  `arg` is `sys.argv[1]` when present. -/
def audioClientMain (devicesOk : Bool) (arg : Option String) : CliOutcome :=
  if devicesOk then
    match arg with
    | some url => { usagePrinted := false, exitCode := none, connectsTo := some url }
    | none => { usagePrinted := true, exitCode := some 1, connectsTo := none }
  else
    { usagePrinted := false, exitCode := some 1, connectsTo := none }

/-- `__main__` of `websocket_client_example.py` (lines 177-189): with no
positional argument it prints the usage message but then falls back to
`ws://localhost:3000/conversation` and proceeds to connect — it does not
exit. -/
def exampleClientMain (arg : Option String) : CliOutcome :=
  match arg with
  | some url => { usagePrinted := false, exitCode := none, connectsTo := some url }
  | none =>
      { usagePrinted := true, exitCode := none,
        connectsTo := some "ws://localhost:3000/conversation" }

/-! ### Concrete demonstration inputs used by the witnesses -/

/-- A 4096-byte PCM chunk filled with one byte value, for the concrete
streaming scenario. -/
def demoChunk (b : Nat) : List Nat := List.replicate 4096 b

/-- A duplicate ready message arriving mid-stream. -/
def demoReady : Msg := { mtype := "websocket_ready", mdata := [], sender := "", text := "" }

/-- An inbound message with an unrecognized type tag. -/
def demoUnknown : Msg := { mtype := "mystery_kind", mdata := [], sender := "", text := "" }

/-- A concrete playback queue: a 6-byte chunk (3 samples) followed by a
2-byte chunk (1 sample). -/
def demoQueue : List (List Nat) := [[0, 0, 0, 0, 0, 0], [1, 1]]

/-! ### Claim C6: equal rates are a no-op fast path -/

/-- C6: when the input rate equals the output rate, the resampling step of
the playback path is the identity: the `if SERVER_SAMPLING_RATE !=
OUTPUT_SAMPLING_RATE` guard skips the resample call and passes the sample
block through unchanged. -/
theorem resampleStage_identity (xs : List Int) (r : Nat) : resampleStage xs r r = xs := by
  simp [resampleStage]

/-! ### Claim C8: CLI argument and device guards -/

/-- C8 counterexample: the example client (`websocket_client_example.py`
lines 182-189), invoked with no positional argument, prints the usage
message but does not exit: it falls back to a default localhost URL and
proceeds to connect, so the claimed non-zero exit does not happen. -/
theorem exampleClient_no_arg_proceeds :
    (exampleClientMain none).usagePrinted = true
    ∧ (exampleClientMain none).exitCode = none
    ∧ (exampleClientMain none).connectsTo = some "ws://localhost:3000/conversation" :=
  ⟨rfl, rfl, rfl⟩

/-- C8 amended: in the two audio client variants, a device-enumeration
failure exits with status 1 before any connection is attempted, and — when
the devices are available — a missing positional argument prints the usage
message and exits with status 1 before any connection; the example client
instead prints the usage message and proceeds with a default address. -/
theorem cli_guard_spec (devicesOk : Bool) (arg : Option String) :
    (devicesOk = false →
      audioClientMain devicesOk arg =
        { usagePrinted := false, exitCode := some 1, connectsTo := none })
    ∧ (devicesOk = true → arg = none →
      audioClientMain devicesOk arg =
        { usagePrinted := true, exitCode := some 1, connectsTo := none })
    ∧ (exampleClientMain none).usagePrinted = true
    ∧ (exampleClientMain none).exitCode = none := by
  refine ⟨?_, ?_, rfl, rfl⟩
  · intro h; subst h; rfl
  · intro h h'; subst h; subst h'; rfl

/-- C8 amended, witness: at the concrete inputs (devices unavailable) and
(devices available, no argument), the audio clients exit with status 1
before connecting. -/
theorem cli_guard_spec_witness :
    audioClientMain false (some "ws://h:3000/conversation") =
      { usagePrinted := false, exitCode := some 1, connectsTo := none }
    ∧ audioClientMain true none =
      { usagePrinted := true, exitCode := some 1, connectsTo := none } :=
  ⟨(cli_guard_spec false (some "ws://h:3000/conversation")).1 rfl,
   (cli_guard_spec true none).2.1 rfl rfl⟩

/-! ### Claim C2: handshake gate -/

/-- C2: after the client sends its configuration, a first inbound message
of type `websocket_ready` moves the session to Streaming (audio streams
start, the loops run); any other first message makes the client print the
unexpected response and return before the streaming block, so the channel
only ever carries the configuration message and in particular no audio
envelope. -/
theorem handshake_gate (first : Msg) (popped leftover : List (List Nat)) :
    (first.mtype = msgTypeReady → handshake first = .streaming)
    ∧ (first.mtype ≠ msgTypeReady →
        handshake first = .closedProtocolError
        ∧ ∀ m ∈ clientWrites first popped leftover, m.mtype ≠ msgTypeAudio) := by
  constructor
  · intro h
    simp [handshake, h]
  · intro h
    have hh : handshake first = .closedProtocolError := by simp [handshake, h]
    refine ⟨hh, ?_⟩
    intro m hm
    simp [clientWrites, hh] at hm
    subst hm
    decide

/-- C2 witness: with a well-formed ready as the first inbound message the
session is Streaming; with a first message of type "bogus" the session
closes with a protocol error and no written message is an audio envelope
(here with a nonempty capture queue). -/
theorem handshake_gate_witness :
    handshake { mtype := "websocket_ready", mdata := [], sender := "", text := "" } = .streaming
    ∧ handshake { mtype := "bogus", mdata := [], sender := "", text := "" } = .closedProtocolError
    ∧ ∀ m ∈ clientWrites { mtype := "bogus", mdata := [], sender := "", text := "" } [[7, 7]] [[9, 9]],
        m.mtype ≠ msgTypeAudio :=
  ⟨(handshake_gate { mtype := "websocket_ready", mdata := [], sender := "", text := "" } [] []).1 rfl,
   ((handshake_gate { mtype := "bogus", mdata := [], sender := "", text := "" } [[7, 7]] [[9, 9]]).2 (by decide)).1,
   ((handshake_gate { mtype := "bogus", mdata := [], sender := "", text := "" } [[7, 7]] [[9, 9]]).2 (by decide)).2⟩

/-! ### Base64 roundtrip -/

theorem decodeChar_encodeChar : ∀ n, n < 64 → decodeChar (encodeChar n) = n := by decide

theorem encodeChar_ne_pad : ∀ n, n < 64 → encodeChar n ≠ '=' := by decide

/-- Decoding inverts encoding on byte sequences. -/
theorem b64_roundtrip : ∀ (bs : List Nat), (∀ x ∈ bs, x < 256) →
    b64DecodeChars (b64EncodeBytes bs) = bs
  | [] => fun _ => rfl
  | [a] => fun h => by
      have ha : a < 256 := h a (by simp)
      simp only [b64EncodeBytes, b64DecodeChars]
      simp only [if_true]
      rw [decodeChar_encodeChar _ (by omega), decodeChar_encodeChar _ (by omega)]
      simp only [List.cons.injEq, and_true]
      omega
  | [a, b] => fun h => by
      have ha : a < 256 := h a (by simp)
      have hb : b < 256 := h b (by simp)
      have hne3 : encodeChar (b % 16 * 4) ≠ '=' := encodeChar_ne_pad _ (by omega)
      simp only [b64EncodeBytes, b64DecodeChars]
      rw [if_neg hne3]
      simp only [if_true]
      rw [decodeChar_encodeChar _ (by omega), decodeChar_encodeChar _ (by omega),
          decodeChar_encodeChar _ (by omega)]
      simp only [List.cons.injEq, and_true]
      omega
  | a :: b :: c :: rest => fun h => by
      have ha : a < 256 := h a (by simp)
      have hb : b < 256 := h b (by simp)
      have hc : c < 256 := h c (by simp)
      have ih := b64_roundtrip rest (fun x hx => h x (by simp [List.mem_cons] at hx ⊢; tauto))
      have hne3 : encodeChar (b % 16 * 4 + c / 64) ≠ '=' := encodeChar_ne_pad _ (by omega)
      have hne4 : encodeChar (c % 64) ≠ '=' := encodeChar_ne_pad _ (by omega)
      simp only [b64EncodeBytes]
      simp only [b64DecodeChars]
      rw [if_neg hne3, if_neg hne4]
      rw [decodeChar_encodeChar _ (by omega), decodeChar_encodeChar _ (by omega),
          decodeChar_encodeChar _ (by omega), decodeChar_encodeChar _ (by omega)]
      rw [ih]
      simp only [List.cons.injEq, and_true]
      refine ⟨by omega, by omega, by omega⟩

/-! ### Claim C3: one audio envelope per chunk, payload recoverable -/

/-- C3: in the Streaming state the send loop emits exactly one audio
envelope per chunk popped from the capture queue, in pop (push) order; each
envelope has type `websocket_audio` and its data field is the base64
encoding of the chunk's exact bytes, so decoding the payload recovers the
pushed bytes. -/
theorem send_audio_spec : ∀ (chunks : List (List Nat)),
    (∀ c ∈ chunks, ∀ b ∈ c, b < 256) →
    (send_audio chunks).length = chunks.length
    ∧ List.Forall₂
        (fun c m => m.mtype = msgTypeAudio ∧ m.mdata = b64EncodeBytes c
          ∧ b64DecodeChars m.mdata = c)
        chunks (send_audio chunks)
  | [] => fun _ => ⟨rfl, List.Forall₂.nil⟩
  | c :: cs => fun h => by
      have ih := send_audio_spec cs (fun x hx => h x (List.mem_cons_of_mem _ hx))
      refine ⟨by simp [send_audio], ?_⟩
      exact List.Forall₂.cons
        ⟨rfl, rfl, b64_roundtrip c (h c (List.mem_cons_self c cs))⟩ ih.2


/-- C3 witness: three concrete 4096-byte chunks are sent as exactly three
audio envelopes, in push order, with base64 payloads that decode back to
the original bytes. -/
theorem send_audio_spec_witness :
    (∀ c ∈ [demoChunk 0, demoChunk 1, demoChunk 255], ∀ b ∈ c, b < 256)
    ∧ (send_audio [demoChunk 0, demoChunk 1, demoChunk 255]).length = 3
    ∧ List.Forall₂
        (fun c m => m.mtype = msgTypeAudio ∧ m.mdata = b64EncodeBytes c
          ∧ b64DecodeChars m.mdata = c)
        [demoChunk 0, demoChunk 1, demoChunk 255]
        (send_audio [demoChunk 0, demoChunk 1, demoChunk 255]) := by
  have h : ∀ c ∈ [demoChunk 0, demoChunk 1, demoChunk 255], ∀ b ∈ c, b < 256 := by
    intro c hc b hb
    simp only [List.mem_cons, List.not_mem_nil, or_false] at hc
    rcases hc with rfl | rfl | rfl <;>
      · have := List.eq_of_mem_replicate hb
        omega
  exact ⟨h, (send_audio_spec _ h).1, (send_audio_spec _ h).2⟩

/-! ### Claim C5: resampled output length -/

/-- Truncating division is within one of round-half-up. -/
theorem roundNearest_bounds (p q : Nat) (hq : 0 < q) :
    p / q ≤ roundNearest p q ∧ roundNearest p q ≤ p / q + 1 := by
  have hmod : p % q < q := Nat.mod_lt _ hq
  have hdm : q * (p / q) + p % q = p := Nat.div_add_mod p q
  have h2q : 0 < 2 * q := by omega
  have h1 : 2 * p + q = (2 * (p % q) + q) + 2 * q * (p / q) := by
    conv_lhs => rw [← hdm]
    ring
  have hsmall : (2 * (p % q) + q) / (2 * q) ≤ 1 := by
    have := (Nat.div_lt_iff_lt_mul h2q).mpr (by omega : 2 * (p % q) + q < 2 * (2 * q))
    omega
  unfold roundNearest
  rw [h1, Nat.add_mul_div_left _ _ h2q]
  refine ⟨Nat.le_add_left _ _, ?_⟩
  calc (2 * (p % q) + q) / (2 * q) + p / q
      ≤ 1 + p / q := Nat.add_le_add_right hsmall _
    _ = p / q + 1 := Nat.add_comm _ _

/-- C5 counterexample: the code computes the output length with python
`int()` (truncation), not rounding: for a 1-sample block with rateIn = 2
and rateOut = 3 the resampling step produces 1 sample while
round(1 × 3 / 2) = 2, so the claimed equality with round fails. -/
theorem resampleStage_not_round :
    (resampleStage [(0 : Int)] 2 3).length = 1
    ∧ roundNearest (1 * 3) 2 = 2
    ∧ (1 : Nat) ≠ 2 := by
  refine ⟨by decide, by decide, by decide⟩

/-- C5 amended: on the resampling path (rates differ) the output length is
the truncation ⌊inputLength × rateOut / rateIn⌋, which is always within one
sample of round(inputLength × rateOut / rateIn); in particular 1600 samples
at 16000 → 44100 yield exactly 4410 = round(4410.0) samples. -/
theorem resampleStage_length (xs : List Int) (rateIn rateOut : Nat)
    (hne : rateIn ≠ rateOut) (hpos : 0 < rateIn) :
    (resampleStage xs rateIn rateOut).length = xs.length * rateOut / rateIn
    ∧ xs.length * rateOut / rateIn ≤ roundNearest (xs.length * rateOut) rateIn
    ∧ roundNearest (xs.length * rateOut) rateIn ≤ xs.length * rateOut / rateIn + 1 := by
  refine ⟨?_, (roundNearest_bounds _ _ hpos).1, (roundNearest_bounds _ _ hpos).2⟩
  simp [resampleStage, hne, resample]

/-- C5 amended, witness: for an input of exactly 1600 samples resampled
from 16000 to 44100, the output length is 4410. -/
theorem resampleStage_length_witness :
    ((16000 : Nat) ≠ 44100 ∧ (0 : Nat) < 16000)
    ∧ (resampleStage (List.replicate 1600 (0 : Int)) 16000 44100).length = 4410 := by
  refine ⟨⟨by decide, by decide⟩, ?_⟩
  have h := (resampleStage_length (List.replicate 1600 (0 : Int)) 16000 44100
    (by decide) (by decide)).1
  rw [h, List.length_replicate]

/-! ### Claim C4: drain writes one final stop message -/

/-- The send loop never emits a stop envelope. -/
theorem send_audio_no_stop : ∀ (chunks : List (List Nat)),
    (send_audio chunks).filter (fun m => m.mtype == msgTypeStop) = []
  | [] => rfl
  | c :: cs => by
      show List.filter _ (audioMsg c :: send_audio cs) = []
      rw [List.filter_cons, if_neg (by simp [audioMsg, msgTypeAudio, msgTypeStop])]
      exact send_audio_no_stop cs

/-- C4: on a stop request after a successful handshake, the client writes
exactly one stop message; it is the last message written before the channel
closes, so no audio envelope follows it — and the chunks still buffered in
the capture queue at that moment (`leftover`, arbitrary here) are never
sent. -/
theorem drain_spec (first : Msg) (popped leftover : List (List Nat))
    (h : first.mtype = msgTypeReady) :
    clientWrites first popped leftover = configStartMsg :: (send_audio popped ++ [stopMsg])
    ∧ (clientWrites first popped leftover).filter (fun m => m.mtype == msgTypeStop) = [stopMsg]
    ∧ (clientWrites first popped leftover).getLast? = some stopMsg := by
  have hs : handshake first = .streaming := by simp [handshake, h]
  have hw : clientWrites first popped leftover =
      configStartMsg :: (send_audio popped ++ [stopMsg]) := by
    simp [clientWrites, hs]
  refine ⟨hw, ?_, ?_⟩
  · rw [hw, List.filter_cons, if_neg (by decide), List.filter_append,
        send_audio_no_stop, List.filter_cons, if_pos (by decide)]
    rfl
  · rw [hw, show configStartMsg :: (send_audio popped ++ [stopMsg]) =
        (configStartMsg :: send_audio popped) ++ [stopMsg] from rfl]
    exact List.getLast?_concat _

/-- C4 witness: with a ready handshake, one popped chunk and two chunks
still buffered at the stop request, the write sequence is the config
message, one audio envelope, and a single final stop message. -/
theorem drain_spec_witness :
    demoReady.mtype = msgTypeReady
    ∧ clientWrites demoReady [[1, 2]] [[3, 4], [5, 6]] =
        configStartMsg :: (send_audio [[1, 2]] ++ [stopMsg])
    ∧ (clientWrites demoReady [[1, 2]] [[3, 4], [5, 6]]).filter
        (fun m => m.mtype == msgTypeStop) = [stopMsg]
    ∧ (clientWrites demoReady [[1, 2]] [[3, 4], [5, 6]]).getLast? = some stopMsg :=
  ⟨rfl, (drain_spec demoReady [[1, 2]] [[3, 4], [5, 6]] rfl).1,
   (drain_spec demoReady [[1, 2]] [[3, 4], [5, 6]] rfl).2.1,
   (drain_spec demoReady [[1, 2]] [[3, 4], [5, 6]] rfl).2.2⟩

/-! ### Claim C9: the receive loop ignores unknown and duplicate-ready messages -/

/-- C9: during streaming, an inbound message whose type is neither audio
nor transcript — in particular a duplicate ready or an unrecognized type —
leaves the receive loop's state unchanged: nothing is enqueued for
playback, no transcript is emitted, no branch raises, and the loop
continues, so deleting such a message from the inbound stream does not
change the resulting playback queue. -/
theorem receive_ignore (q : List (List Nat)) (m : Msg)
    (h1 : m.mtype ≠ msgTypeAudio) (h2 : m.mtype ≠ msgTypeTranscript) :
    receive_step q m = { queue := q, transcriptOut := none }
    ∧ ∀ (ms1 ms2 : List Msg),
        receive_loop q (ms1 ++ m :: ms2) = receive_loop q (ms1 ++ ms2) := by
  have hstep : ∀ q', receive_step q' m = { queue := q', transcriptOut := none } := by
    intro q'
    simp [receive_step, h1, h2]
  refine ⟨hstep q, ?_⟩
  intro ms1 ms2
  show List.foldl _ q (ms1 ++ m :: ms2) = List.foldl _ q (ms1 ++ ms2)
  rw [List.foldl_append, List.foldl_append, List.foldl_cons]
  congr 1
  exact congrArg RecvEffect.queue (hstep _)

/-- C9 witness: a duplicate ready message mid-stream is ignored — the
playback queue is untouched and removing the message from the inbound
sequence leaves the loop's result unchanged. -/
theorem receive_ignore_witness :
    (demoReady.mtype ≠ msgTypeAudio ∧ demoReady.mtype ≠ msgTypeTranscript)
    ∧ receive_step [[1, 2]] demoReady = { queue := [[1, 2]], transcriptOut := none }
    ∧ receive_loop [[1, 2]] [demoUnknown, demoReady] = receive_loop [[1, 2]] [demoUnknown] :=
  ⟨⟨by decide, by decide⟩,
   (receive_ignore [[1, 2]] demoReady (by decide) (by decide)).1,
   (receive_ignore [[1, 2]] demoReady (by decide) (by decide)).2 [demoUnknown] []⟩

/-! ### Claim C1: bounded queues — counterexample for the simple variant -/

set_option maxRecDepth 8000 in
/-- C1 counterexample: the simple variant's `audio_callback` skips the new
chunk when the queue is full (`except Full: pass`), so pushing chunks
#1..#60 into its capacity-10 queue retains the ten OLDEST chunks #1..#10 —
not the ten most recently pushed chunks — contradicting the claimed
drop-oldest eviction for that variant's bounded queues. -/
theorem pushDropNew_keeps_oldest :
    ((List.range 60).map (fun i => [i + 1])).foldl (pushDropNew SIMPLE_QUEUE_SIZE) [] =
      (List.range 10).map (fun i => [i + 1])
    ∧ ((List.range 60).map (fun i => [i + 1])).foldl (pushDropNew SIMPLE_QUEUE_SIZE) [] ≠
      (List.range 10).map (fun i => [i + 51]) :=
  ⟨by decide, by decide⟩

/-! ### Claim C7: playback callback fill — counterexample for the simple variant -/

set_option maxRecDepth 8000 in
/-- C7 counterexample: the simple variant's playback callback does not fill
the buffer on every invocation: with a queued 6-byte chunk (3 samples,
resampled to 8 samples at 16000 → 44100) and a requested frame count of 1,
the slice assignment `outdata[:len(audio_array)]` raises a numpy broadcast
error (the except clause catches only `queue.Empty`), leaving the buffer
unwritten rather than filled to the requested length. -/
theorem outputCallbackSimple_overrun :
    outputCallbackSimple SERVER_SAMPLING_RATE OUTPUT_SAMPLING_RATE
      [[0, 0, 0, 0, 0, 0]] 1 = none := by
  decide

/-! ### Claim C1: drop-oldest bounded queue (buffered variant) -/

/-- One drop-oldest push preserves the capacity bound. -/
theorem pushDropOldest_length_le {N : Nat} (hN : 0 < N) (q : List α) (x : α)
    (h : q.length ≤ N) : (pushDropOldest N q x).length ≤ N := by
  unfold pushDropOldest
  by_cases hlt : q.length < N
  · rw [if_pos hlt]
    simp
    omega
  · rw [if_neg hlt]
    simp
    omega

/-- Any queue operation preserves the capacity bound. -/
theorem applyOp_length_le {N : Nat} (hN : 0 < N) (q : List α) (op : QOp α)
    (h : q.length ≤ N) : (applyOp N q op).length ≤ N := by
  cases op with
  | push x => exact pushDropOldest_length_le hN q x h
  | pop =>
      simp only [applyOp, List.length_drop]
      omega

/-- The capacity invariant holds after any operation sequence. -/
theorem runOps_length_le {N : Nat} (hN : 0 < N) :
    ∀ (ops : List (QOp α)) (q : List α), q.length ≤ N → (runOps N q ops).length ≤ N
  | [], _, h => h
  | op :: ops, q, h =>
      runOps_length_le hN ops (applyOp N q op) (applyOp_length_le hN q op h)

/-- Appending on the right preserves the suffix relation. -/
theorem suffix_append_same {l₁ l₂ t : List α} (h : l₁ <:+ l₂) : l₁ ++ t <:+ l₂ ++ t := by
  obtain ⟨s, hs⟩ := h
  exact ⟨s, by rw [← hs, List.append_assoc]⟩

/-- One queue operation maps a state to a suffix of the state extended by
the pushed values of that operation. -/
theorem applyOp_suffix {N : Nat} (q : List α) (op : QOp α) :
    applyOp N q op <:+ q ++ pushedValues [op] := by
  cases op with
  | push x =>
      show pushDropOldest N q x <:+ q ++ [x]
      unfold pushDropOldest
      by_cases hlt : q.length < N
      · rw [if_pos hlt]
      · rw [if_neg hlt]
        exact suffix_append_same (List.drop_suffix 1 q)
  | pop =>
      show q.drop 1 <:+ q ++ []
      rw [List.append_nil]
      exact List.drop_suffix 1 q

/-- The queue contents are always a suffix of the initial state followed by
the values pushed so far: FIFO order of surviving elements matches push
order, and survivors are always the most recent data. -/
theorem runOps_suffix {N : Nat} :
    ∀ (ops : List (QOp α)) (q : List α), runOps N q ops <:+ q ++ pushedValues ops
  | [], q => by
      simp [runOps, pushedValues]
  | .push x :: ops, q => by
      have ih := runOps_suffix (N := N) ops (pushDropOldest N q x)
      have h1 : pushDropOldest N q x ++ pushedValues ops <:+ (q ++ [x]) ++ pushedValues ops :=
        suffix_append_same (applyOp_suffix (N := N) q (.push x))
      have h2 : (q ++ [x]) ++ pushedValues ops = q ++ pushedValues (.push x :: ops) := by
        simp [pushedValues]
      exact (ih.trans h1).trans (h2 ▸ List.suffix_refl _)
  | .pop :: ops, q => by
      have ih := runOps_suffix (N := N) ops (q.drop 1)
      have h1 : q.drop 1 ++ pushedValues ops <:+ q ++ pushedValues ops :=
        suffix_append_same (List.drop_suffix 1 q)
      exact ih.trans h1

/-- Window formula for pure pushes: folding drop-oldest pushes over any
start state within capacity keeps exactly the last `N` elements of the
concatenated stream. -/
theorem foldl_pushDropOldest_window {N : Nat} (hN : 0 < N) :
    ∀ (xs : List α) (q : List α), q.length ≤ N →
      xs.foldl (pushDropOldest N) q = (q ++ xs).drop (q.length + xs.length - N)
  | [], q => fun h => by
      simp only [List.foldl_nil, List.append_nil, List.length_nil, Nat.add_zero]
      rw [Nat.sub_eq_zero_of_le h, List.drop_zero]
  | x :: xs, q => fun h => by
      simp only [List.foldl_cons]
      by_cases hlt : q.length < N
      · have hp : pushDropOldest N q x = q ++ [x] := if_pos hlt
        have hlen : (q ++ [x]).length ≤ N := by
          simp only [List.length_append, List.length_singleton, List.length_cons, List.length_nil]
          omega
        have ih := foldl_pushDropOldest_window hN xs (q ++ [x]) hlen
        have e1 : (q ++ [x]) ++ xs = q ++ x :: xs := by simp
        have e2 : (q ++ [x]).length + xs.length - N = q.length + (x :: xs).length - N := by
          simp only [List.length_append, List.length_singleton, List.length_cons, List.length_nil]
          omega
        rw [hp, ih, e1, e2]
      · have hq : q.length = N := by omega
        have hp : pushDropOldest N q x = q.drop 1 ++ [x] := if_neg hlt
        have hlen : (q.drop 1 ++ [x]).length ≤ N := by
          simp only [List.length_append, List.length_drop, List.length_singleton, List.length_cons, List.length_nil]
          omega
        have ih := foldl_pushDropOldest_window hN xs (q.drop 1 ++ [x]) hlen
        rw [hp, ih]
        have e1 : (q.drop 1 ++ [x]) ++ xs = q.drop 1 ++ x :: xs := by simp
        have e2 : (q.drop 1 ++ [x]).length + xs.length - N = xs.length := by
          simp only [List.length_append, List.length_drop, List.length_singleton, List.length_cons, List.length_nil]
          omega
        have e3 : q.length + (x :: xs).length - N = xs.length + 1 := by
          simp only [List.length_cons]
          omega
        rw [e1, e2, e3]
        have e4 : (q ++ x :: xs).drop (xs.length + 1) = ((q ++ x :: xs).drop 1).drop xs.length := by
          rw [List.drop_drop, Nat.add_comm]
        rw [e4, List.drop_append_of_le_length (by omega : 1 ≤ q.length)]

/-- C1 amended: the buffered variant's queues satisfy the claim: under any
sequence of pushes and pops the queue never exceeds capacity `N`, its
contents are always a suffix of the pushed values (the most recent
survivors, in FIFO push order), and for pushes with no intervening pops the
queue holds exactly the last `N` pushed chunks — in particular pushing 60
chunks into the capacity-50 queue leaves chunks #11–#60, in order.  (In the
simple variant a full queue instead discards the incoming chunk.) -/
theorem boundedQueue_drop_oldest (N : Nat) (hN : 0 < N)
    (ops : List (QOp (List Nat))) (xs : List (List Nat)) :
    (runOps N [] ops).length ≤ N
    ∧ runOps N [] ops <:+ pushedValues ops
    ∧ xs.foldl (pushDropOldest N) [] = xs.drop (xs.length - N) := by
  refine ⟨runOps_length_le hN ops [] (by simp), ?_, ?_⟩
  · have h := runOps_suffix (N := N) ops []
    simpa using h
  · have h := foldl_pushDropOldest_window hN xs [] (by simp)
    simpa using h

set_option maxRecDepth 8000 in
/-- C1 amended, witness: pushing chunks #1..#60 into the buffered variant's
capacity-50 queue with no pops leaves exactly chunks #11..#60, in that
order. -/
theorem boundedQueue_drop_oldest_witness :
    (0 : Nat) < BUFFERED_QUEUE_SIZE
    ∧ ((List.range 60).map (fun i => [i + 1])).foldl (pushDropOldest BUFFERED_QUEUE_SIZE) [] =
        (List.range 50).map (fun i => [i + 11]) := by
  refine ⟨by decide, ?_⟩
  have h := (boundedQueue_drop_oldest BUFFERED_QUEUE_SIZE (by decide) []
    ((List.range 60).map (fun i => [i + 1]))).2.2
  rw [h]
  decide

/-! ### Claim C10: the buffered playback callback discards excess samples -/

/-- Specification of the collection loop: the popped chunks are an initial
segment of the queue (the rest is returned untouched); the loop only stops
early once the accumulated sample count reaches `frames`; and every chunk
was popped while the count so far was still below `frames`. -/
theorem collectChunks_spec : ∀ (q : List (List Nat)) (frames total : Nat),
    q = (collectChunks frames total q).1 ++ (collectChunks frames total q).2
    ∧ ((collectChunks frames total q).2 ≠ [] →
        frames ≤ total + sampleCount (collectChunks frames total q).1)
    ∧ ((collectChunks frames total q).1 ≠ [] →
        total + sampleCount (collectChunks frames total q).1.dropLast < frames)
  | [], frames, total => by
      simp [collectChunks, sampleCount]
  | c :: rest, frames, total => by
      by_cases hlt : total < frames
      · have ih := collectChunks_spec rest frames (total + (bytesToInt16 c).length)
        have hc : collectChunks frames total (c :: rest) =
            (c :: (collectChunks frames (total + (bytesToInt16 c).length) rest).1,
             (collectChunks frames (total + (bytesToInt16 c).length) rest).2) := by
          simp [collectChunks, hlt]
        rw [hc]
        refine ⟨?_, ?_, ?_⟩
        · exact congrArg (c :: ·) ih.1
        · intro hne
          have h2 := ih.2.1 hne
          simp only [sampleCount, List.map_cons, List.sum_cons]
          simp only [sampleCount] at h2
          omega
        · intro _
          by_cases hp : (collectChunks frames (total + (bytesToInt16 c).length) rest).1 = []
          · simp [hp, sampleCount, hlt]
          · have h3 := ih.2.2 hp
            rw [List.dropLast_cons_of_ne_nil hp]
            simp only [sampleCount, List.map_cons, List.sum_cons]
            simp only [sampleCount] at h3
            omega
      · have hc : collectChunks frames total (c :: rest) = ([], c :: rest) := by
          simp [collectChunks, hlt]
        rw [hc]
        refine ⟨by simp, fun _ => by simp [sampleCount]; omega, fun hne => absurd rfl hne⟩

/-- C10: the buffered variant's playback callback pops whole chunks until
the accumulated sample count reaches the requested frame count (or the
queue empties); the popped chunks are removed from the front of the queue
and the remainder is returned untouched; after resampling, only the first
min(available, frames) samples are written (with zero fill up to `frames`),
and the excess resampled samples appear neither in the buffer nor back in
the queue — they are discarded.  Chunks are assumed to be well-formed PCM16
data (even byte count): on an odd byte count `np.frombuffer` would raise an
uncaught ValueError inside the collection loop instead, a path this model
does not cover. -/
theorem outputCallbackBuffered_discards (rateIn rateOut : Nat)
    (q : List (List Nat)) (frames : Nat)
    (hEven : ∀ c ∈ q, c.length % 2 = 0) :
    q = (collectChunks frames 0 q).1 ++ (collectChunks frames 0 q).2
    ∧ (outputCallbackBuffered rateIn rateOut q frames).2 = (collectChunks frames 0 q).2
    ∧ ((collectChunks frames 0 q).2 ≠ [] →
        frames ≤ sampleCount (collectChunks frames 0 q).1)
    ∧ ((collectChunks frames 0 q).1 ≠ [] →
        sampleCount (collectChunks frames 0 q).1.dropLast < frames)
    ∧ ((collectChunks frames 0 q).1 ≠ [] →
        (outputCallbackBuffered rateIn rateOut q frames).1 =
          (resampleStage (((collectChunks frames 0 q).1.map bytesToInt16).flatten)
              rateIn rateOut).take frames
          ++ List.replicate
              (frames -
                (resampleStage (((collectChunks frames 0 q).1.map bytesToInt16).flatten)
                  rateIn rateOut).length) 0) := by
  have hs := collectChunks_spec q frames 0
  refine ⟨hs.1, ?_, ?_, ?_, ?_⟩
  · simp only [outputCallbackBuffered]
    split <;> rfl
  · intro h
    have := hs.2.1 h
    simpa using this
  · intro h
    have := hs.2.2 h
    simpa using this
  · intro h
    have hE : (collectChunks frames 0 q).1.isEmpty = false := by
      simpa [List.isEmpty_iff] using h
    simp only [outputCallbackBuffered, hE, Bool.false_eq_true, if_false]
    rcases Nat.le_total
        (resampleStage (((collectChunks frames 0 q).1.map bytesToInt16).flatten)
          rateIn rateOut).length frames with h1 | h1
    · rw [Nat.min_eq_left h1, List.take_length, List.take_of_length_le h1]
    · rw [Nat.min_eq_right h1, Nat.sub_self, Nat.sub_eq_zero_of_le h1]

/-- C10 witness: with a well-formed 3-sample (6-byte) chunk followed by a
1-sample (2-byte) chunk and a requested frame count of 2, the callback pops
only the first chunk (3 samples ≥ 2 frames), leaves the second queued, and
writes only the first 2 of the 8 resampled samples. -/
theorem outputCallbackBuffered_discards_witness :
    (∀ c ∈ demoQueue, c.length % 2 = 0)
    ∧ demoQueue = (collectChunks 2 0 demoQueue).1 ++ (collectChunks 2 0 demoQueue).2
    ∧ (outputCallbackBuffered 16000 44100 demoQueue 2).2 = (collectChunks 2 0 demoQueue).2
    ∧ 2 ≤ sampleCount (collectChunks 2 0 demoQueue).1
    ∧ sampleCount (collectChunks 2 0 demoQueue).1.dropLast < 2
    ∧ (outputCallbackBuffered 16000 44100 demoQueue 2).1 =
        (resampleStage (((collectChunks 2 0 demoQueue).1.map bytesToInt16).flatten)
            16000 44100).take 2
        ++ List.replicate
            (2 -
              (resampleStage (((collectChunks 2 0 demoQueue).1.map bytesToInt16).flatten)
                16000 44100).length) 0 := by
  have h := outputCallbackBuffered_discards 16000 44100 demoQueue 2 (by decide)
  exact ⟨by decide, h.1, h.2.1, h.2.2.1 (by decide), h.2.2.2.1 (by decide),
    h.2.2.2.2 (by decide)⟩

/-- C7 amended: the buffered variant's playback callback always fills the
buffer to exactly the requested frame count — all zeros when the queue is
empty, zero-filling any remainder when less audio is available.  The simple
variant does the same when the queue is empty and whenever the resampled
chunk fits in the buffer; an over-long resampled chunk instead raises (see
the counterexample).  Chunks are assumed to be well-formed PCM16 data
(even byte count), where the model's byte decoding matches numpy's. -/
theorem playback_fill_spec (rateIn rateOut : Nat) (q : List (List Nat)) (frames : Nat)
    (hEven : ∀ c ∈ q, c.length % 2 = 0) :
    (outputCallbackBuffered rateIn rateOut q frames).1.length = frames
    ∧ (q = [] → (outputCallbackBuffered rateIn rateOut q frames).1 = List.replicate frames 0)
    ∧ outputCallbackSimple rateIn rateOut [] frames = some (List.replicate frames 0)
    ∧ (∀ chunk rest, q = chunk :: rest →
        (resampleStage (bytesToInt16 chunk) rateIn rateOut).length ≤ frames →
        outputCallbackSimple rateIn rateOut q frames =
          some (resampleStage (bytesToInt16 chunk) rateIn rateOut ++
            List.replicate
              (frames - (resampleStage (bytesToInt16 chunk) rateIn rateOut).length) 0)
        ∧ (resampleStage (bytesToInt16 chunk) rateIn rateOut ++
            List.replicate
              (frames - (resampleStage (bytesToInt16 chunk) rateIn rateOut).length) 0).length
            = frames) := by
  refine ⟨?_, ?_, rfl, ?_⟩
  · simp only [outputCallbackBuffered]
    split
    · simp
    · simp only [List.length_append, List.length_take, List.length_replicate]
      omega
  · intro h
    subst h
    rfl
  · intro chunk rest hq hlen
    subst hq
    constructor
    · simp only [outputCallbackSimple]
      rw [if_pos hlen]
    · simp only [List.length_append, List.length_replicate]
      omega

set_option maxRecDepth 8000 in
/-- C7 amended, witness: concrete invocations — the buffered callback
writes exactly 5 samples from the demo queue; the simple callback writes 7
zeros on an empty queue, and writes an 8-sample resampled chunk followed by
2 zeros into a 10-frame buffer. -/
theorem playback_fill_spec_witness :
    (∀ c ∈ demoQueue, c.length % 2 = 0)
    ∧ (outputCallbackBuffered 16000 44100 demoQueue 5).1.length = 5
    ∧ outputCallbackSimple 16000 44100 [] 7 = some (List.replicate 7 0)
    ∧ outputCallbackSimple 16000 44100 [[0, 0, 0, 0, 0, 0]] 10 =
        some (resampleStage (bytesToInt16 [0, 0, 0, 0, 0, 0]) 16000 44100 ++
          List.replicate
            (10 - (resampleStage (bytesToInt16 [0, 0, 0, 0, 0, 0]) 16000 44100).length) 0) := by
  refine ⟨by decide, ?_, ?_, ?_⟩
  · exact (playback_fill_spec 16000 44100 demoQueue 5 (by decide)).1
  · exact (playback_fill_spec 16000 44100 [] 7 (by simp)).2.2.1
  · exact ((playback_fill_spec 16000 44100 [[0, 0, 0, 0, 0, 0]] 10 (by decide)).2.2.2
      [0, 0, 0, 0, 0, 0] [] rfl (by decide)).1
